import Mathlib

/-!
Verification of the auto-causality repository: a shallow embedding of the
estimator-name resolution (`AutoCausality._create_estimator_list` /
`_verify_estimator_list` in `auto_causality/optimiser.py`), of the scoring
engine (`make_scores` in `auto_causality/scoring.py`), of the estimator search
loop (`AutoCausality.fit` and its `best_*` accessors), and of the parameter
merge in `AutoCausality._estimate_effect`, together with theorems settling the
stated properties of those functions.

Conventions: Python dicts are association lists with first-match lookup and
in-place overwrite; numeric values are `ℚ`; a raised Python exception is
`Except.error`; a Python `None` standing where a value may stand is `none`.
-/

namespace AutoCausality

/-! ## Estimator name resolution (`optimiser.py`, lines 148-213)

The `estimator_list` constructor argument is a Python value that may be a
string, a list (of strings or other values), or some other object; `PySetting`
models the shapes the resolution code distinguishes. -/

/-- An element of a requested estimator list: a string, or a non-string value
(modelled by an integer payload, as in the repository test that requests `12`). -/
inductive PyItem where
  | str : String → PyItem
  | int : Int → PyItem
deriving DecidableEq

/-- The `estimator_list` setting: a string (such as `"auto"`), an arbitrary
non-list non-string value (modelled by an integer), or a list of items. -/
inductive PySetting where
  | str : String → PySetting
  | int : Int → PySetting
  | list : List PyItem → PySetting
deriving DecidableEq

/-- Character-list leading match: the first argument occurs at the head of the
second. -/
def matchAt : List Char → List Char → Bool
  | [], _ => true
  | _ :: _, [] => false
  | a :: as, b :: bs => a == b && matchAt as bs

/-- Contiguous occurrence of the first character list inside the second. -/
def subOf : List Char → List Char → Bool
  | n, [] => n.isEmpty
  | n, b :: bs => matchAt n (b :: bs) || subOf n bs

/-- Python `needle in hay` on strings: case-sensitive substring containment. -/
def strIn (needle hay : String) : Bool := subOf needle.toList hay.toList

/-- The hard-coded family patterns of `_create_estimator_list`
(`optimiser.py`, lines 161-170). -/
def estimatorPatterns : List String :=
  ["metalearners", "CausalForestDML", ".LinearDML", "SparseLinearDML",
   "ForestDRLearner", "LinearDRLearner", "Ortho", "TransformedOutcome"]

/-- The `available_estimators` computed from the registry `self.cfg.estimators()`
(kept as the parameter `registry`): every registry identifier containing one of
the family patterns (`optimiser.py`, lines 156-173). -/
def availableEstimators (registry : List String) : List String :=
  registry.filter fun e => estimatorPatterns.any fun p => strIn p e

/-- `AutoCausality._verify_estimator_list` (`optimiser.py`, lines 205-213):
the setting is a list whose every element is a string. -/
def verifyEstimatorList : PySetting → Bool
  | PySetting.list xs => xs.all fun x => match x with
      | PyItem.str _ => true
      | PyItem.int _ => false
  | _ => false

/-- The strings among the items of a requested list (exact when
`verifyEstimatorList` holds, since then every item is a string). -/
def requestedStrings : List PyItem → List String
  | [] => []
  | PyItem.str s :: xs => s :: requestedStrings xs
  | PyItem.int _ :: xs => requestedStrings xs

/-- Outcome of estimator-list resolution: either the matched list is returned,
or a `warnings.warn` message is emitted and a default list is returned.  The
code never raises in this function. -/
inductive Resolution where
  | resolved : List String → Resolution
  | defaulted : String → List String → Resolution
deriving DecidableEq

/-- Python `list(dict.fromkeys(l))`: deduplication keeping the first
occurrence, with an accumulator of already-seen keys. -/
def dedupFirst (seen : List String) : List String → List String
  | [] => []
  | x :: xs => if x ∈ seen then dedupFirst seen xs else x :: dedupFirst (x :: seen) xs

/-- `AutoCausality._create_estimator_list` (`optimiser.py`, lines 148-203):
`"auto"` or the empty list default to all available estimators with a warning;
a structurally valid request is matched by substring containment and
deduplicated; an empty match or a structurally invalid request warn and default. -/
def createEstimatorList (registry : List String) (setting : PySetting) : Resolution :=
  let available := availableEstimators registry
  if setting = PySetting.str "auto" ∨ setting = PySetting.list [] then
    Resolution.defaulted "No estimators specified, adding all available estimators..." available
  else if verifyEstimatorList setting then
    match setting with
    | PySetting.list items =>
      let matched := (requestedStrings items).flatMap fun r => available.filter fun a => strIn r a
      let use := dedupFirst [] matched
      if use = [] then
        Resolution.defaulted "requested estimators not implemented, continuing with defaults" available
      else
        Resolution.resolved use
    | _ =>
      Resolution.defaulted "invalid estimator list requested, continuing with defaults" available
  else
    Resolution.defaulted "invalid estimator list requested, continuing with defaults" available

/-- A concrete registry sample shaped like the dowhy/econml identifiers the
registry yields, covering each family pattern. -/
def sampleRegistry : List String :=
  ["backdoor.econml.dml.LinearDML",
   "backdoor.econml.dml.SparseLinearDML",
   "backdoor.econml.dml.CausalForestDML",
   "backdoor.econml.drlearner.ForestDRLearner",
   "backdoor.econml.drlearner.LinearDRLearner",
   "backdoor.econml.metalearners.XLearner",
   "backdoor.econml.metalearners.TLearner",
   "backdoor.econml.ortho_forest.DMLOrthoForest",
   "backdoor.propensity_score_weighting"]

/-- Boolean statement of the resolved-list properties of claim C9: resolution
succeeded, the result is duplicate-free, every element is an available
estimator, and every element contains some requested string. -/
def resolvedListOk (registry : List String) (reqs : List String) : Resolution → Bool
  | Resolution.resolved l =>
      decide l.Nodup
        && l.all (fun a => decide (a ∈ availableEstimators registry))
        && l.all (fun a => reqs.any fun r => strIn r a)
  | Resolution.defaulted _ _ => false

/-! ## Off-policy scoring engine (`scoring.py`, `make_scores`, lines 122-168)

The dataframe is viewed through the two columns `make_scores` reads: the
treatment indicator and the outcome.  The vendored uplift metrics
(`thirdparty.causalml.metrics`) and the interpretability surrogate (econml)
are external collaborators, taken as parameters; the ERUPT helper
(`auto_causality/erupt.py`, not under `src/`) is modelled from the spec. -/

/-- A dataframe row restricted to the treatment and outcome columns. -/
structure DRow where
  treated : ℚ
  outcome : ℚ
deriving DecidableEq

/-- The dataframe handed to `make_scores`. -/
structure DFrame where
  rows : List DRow
deriving DecidableEq

/-- Modelled from the spec: the auxiliary propensity model
(`DummyClassifier(strategy="prior")`, fitted by `ERUPT.fit` of the missing
`auto_causality/erupt.py`) "defaults to the observed treatment marginal", so
`predict_proba(df)[:, 1]` is the fraction of treated rows. -/
def priorP1 (df : DFrame) : ℚ :=
  ((df.rows.filter fun r => r.treated == 1).length : ℚ) / (df.rows.length : ℚ)

/-- Modelled from the spec: the unnormalized ERUPT weight of one row
(`ERUPT.weights` of the missing `auto_causality/erupt.py`): "weight = 1 if
(policy==observed treatment) else 0, rescaled by 1/P(observed treatment)"
under the prior propensity model. -/
def eruptRawWeight (p1 : ℚ) (treated : ℚ) (policy : Bool) : ℚ :=
  if (treated == 1) = policy then
    (if treated == 1 then 1 / p1 else 1 / (1 - p1))
  else 0

/-- Modelled from the spec: the per-row ERUPT weights, "normalized so weighted
rows sum to the sample size" (`ERUPT.weights` of the missing
`auto_causality/erupt.py`). -/
def eruptWeights (df : DFrame) (policy : List Bool) : List ℚ :=
  let p1 := priorP1 df
  let raw := (df.rows.zip policy).map fun rp => eruptRawWeight p1 rp.1.treated rp.2
  let s := raw.sum
  raw.map fun w => w * (df.rows.length : ℚ) / s

/-- Modelled from the spec: the ERUPT policy-value score (`ERUPT.score` of the
missing `auto_causality/erupt.py`): the weighted average outcome under the
policy recommended by the sign of the effect predictions. -/
def eruptScoreF (df : DFrame) (cate : List ℚ) : ℚ :=
  let policy := cate.map fun c => decide (0 < c)
  let w := eruptWeights df policy
  ((df.rows.zip w).map fun rw => rw.2 * rw.1.outcome).sum / (df.rows.length : ℚ)

/-- `np.mean` on an (exact-arithmetic) vector: sum over length. -/
def npMean (l : List ℚ) : ℚ := l.sum / (l.length : ℚ)

/-- One row of the per-row diagnostic table `values` built by `make_scores`
(columns `treated`, outcome, `p`, `policy`, `weights`). -/
structure ScoreRow where
  treated : ℚ
  outcome : ℚ
  p : ℚ
  policy : Bool
  weight : ℚ
deriving DecidableEq

/-- The dictionary returned by `make_scores`; `T` is the opaque type of the
fitted interpretability surrogate. -/
structure Scores (T : Type) where
  erupt : ℚ
  qini : ℚ
  auc : ℚ
  r_score : ℚ
  ate : ℚ
  intrp : Option T
  values : List ScoreRow
deriving DecidableEq

/-- The diagnostic table assembled by the column assignments of `make_scores`
(lines 149-154): base columns from the dataframe, the constant propensity
column, the policy bits and the ERUPT weights. -/
def buildRows (rows : List DRow) (p1 : ℚ) (policy : List Bool) (w : List ℚ) : List ScoreRow :=
  (rows.zip (policy.zip w)).map fun rpw =>
    ⟨rpw.1.treated, rpw.1.outcome, p1, rpw.2.1, rpw.2.2⟩

/-- `make_scores` (`scoring.py`, lines 122-168).  `qiniF` and `auucF` stand for
the vendored `metrics.qini_score` / `metrics.auuc_score` calls, `interp` for
the outcome of the `try` block fitting the `SingleTreeCateInterpreter`
(`some` tree on success, `none` when it raised and was swallowed), and
`rScorer` for the optional reference scorer.  A pandas column assignment whose
array length differs from the frame raises `ValueError`; the final `assert`
raises `AssertionError`; both are `Except.error`. -/
def makeScores {T : Type} (qiniF auucF : DFrame → List ℚ → ℚ) (interp : Option T)
    (df : DFrame) (cate : List ℚ) (rScorer : Option (List ℚ → ℚ)) :
    Except String (Scores T) :=
  let intrp := interp
  let p1 := priorP1 df
  if cate.length = df.rows.length then
    let policy := cate.map fun c => decide (0 < c)
    let w := eruptWeights df policy
    if w.length = df.rows.length then
      let values := buildRows df.rows p1 policy w
      if values.length = df.rows.length then
        Except.ok
          { erupt := eruptScoreF df cate
            qini := qiniF df cate
            auc := auucF df cate
            r_score := match rScorer with
              | none => 0
              | some f => f cate
            ate := npMean cate
            intrp := intrp
            values := values }
      else Except.error "AssertionError: Index weirdness when adding columns!"
    else Except.error "ValueError: Length of values does not match length of index"
  else Except.error "ValueError: Length of values does not match length of index"

/-- The `r_score` entry of a `make_scores` outcome, when it returned. -/
def exceptRScore {T : Type} : Except String (Scores T) → Option ℚ
  | Except.ok s => some s.r_score
  | Except.error _ => none

/-- The `ate` entry of a `make_scores` outcome, when it returned. -/
def exceptAte {T : Type} : Except String (Scores T) → Option ℚ
  | Except.ok s => some s.ate
  | Except.error _ => none

/-- A concrete two-row dataframe (one treated row with outcome 5, one control
row with outcome 3) used by the concrete instances below. -/
def dfW : DFrame := ⟨[⟨1, 5⟩, ⟨0, 3⟩]⟩

/-- A concrete effect-prediction vector of matching length and mixed sign. -/
def cateW : List ℚ := [1, -1]

/-- The score record `make_scores` yields on `dfW`/`cateW` with constant-zero
uplift metrics, a failed interpreter fit, and no reference scorer. -/
def scoresW : Scores Unit :=
  { erupt := eruptScoreF dfW cateW
    qini := 0
    auc := 0
    r_score := 0
    ate := npMean cateW
    intrp := none
    values := buildRows dfW.rows (priorP1 dfW) (cateW.map fun c => decide (0 < c))
      (eruptWeights dfW (cateW.map fun c => decide (0 < c))) }

/-! ## Python dictionaries

Association lists with first-match lookup; `dSet` is Python item assignment
(overwrite in place, else append), so iteration order is insertion order. -/

/-- First-match lookup in an association list (Python `d[k]` / `d.get(k)`). -/
def dLookup {α : Type} (k : String) : List (String × α) → Option α
  | [] => none
  | (k2, v) :: rest => if k2 = k then some v else dLookup k rest

/-- Python `d[k] = v`: overwrite the existing entry in place, else append. -/
def dSet {α : Type} (k : String) (v : α) : List (String × α) → List (String × α)
  | [] => [(k, v)]
  | (k2, v2) :: rest => if k2 = k then (k, v) :: rest else (k2, v2) :: dSet k v rest

/-- Left-biased choice on options (Python truthiness of a found entry). -/
def optOr {α : Type} : Option α → Option α → Option α
  | some v, _ => some v
  | none, o => o

/-! ## Search orchestrator (`optimiser.py`, `fit` loop lines 268-298 and the
`best_*` accessors lines 401-447)

The estimator registry entry (`self.cfg.method_params`), the flaml tuner run
and the metric value produced by one `_estimate_effect` call are external
collaborators, taken as the parameters `cfgOf`, `tuner` and `effectMetric`. -/

/-- A hyperparameter configuration (a Python dict of numeric leaves). -/
abbrev Config := List (String × ℚ)

/-- The estimator descriptor `self.cfg.method_params(name)`: a fixed
`init_params` dict and a possibly empty `search_space` dict. -/
structure EstimatorCfg where
  search_space : Config
  init_params : Config

/-- The outcome of a `tune.run` call: `results.best_config` (Python `None`
when no trial succeeded) and the selection-metric value of
`results.get_best_trial()` (`none` when every trial failed). -/
structure TunerOutcome where
  best_config : Option Config
  best_trial : Option ℚ

/-- The orchestrator state the claims read: `self.tune_results`,
`self.scores` (an entry's value is `none` for a failed estimator, mirroring
`self.scores[name] = None`), and the log of the direct `_estimate_effect`
calls `fit` makes outside any tuner (estimator name and the config argument). -/
structure FitState where
  tune_results : List (String × Option Config)
  scores : List (String × Option ℚ)
  effect_calls : List (String × Config)
deriving DecidableEq

/-- One iteration of the `for estimator_name in self.estimator_list` loop of
`fit` (lines 268-298): an empty search space performs a single
`_estimate_effect(init_params)` trial; otherwise the tuner runs, its best
config is logged, and a tuner with no best trial records a `None` score and
`continue`s. -/
def fitStep (cfgOf : String → EstimatorCfg) (tuner : String → TunerOutcome)
    (effectMetric : String → Config → ℚ) (st : FitState) (name : String) : FitState :=
  let c := cfgOf name
  if c.search_space = [] then
    { tune_results := dSet name (some []) st.tune_results
      effect_calls := st.effect_calls ++ [(name, c.init_params)]
      scores := dSet name (some (effectMetric name c.init_params)) st.scores }
  else
    let r := tuner name
    let tr := dSet name r.best_config st.tune_results
    match r.best_trial with
    | none => { st with tune_results := tr, scores := dSet name none st.scores }
    | some v => { st with tune_results := tr, scores := dSet name (some v) st.scores }

/-- The `fit` loop over an estimator list, from a given state. -/
def fitList (cfgOf : String → EstimatorCfg) (tuner : String → TunerOutcome)
    (effectMetric : String → Config → ℚ) : FitState → List String → FitState
  | st, [] => st
  | st, n :: rest => fitList cfgOf tuner effectMetric (fitStep cfgOf tuner effectMetric st n) rest

/-- The `fit` loop from the empty initial state. -/
def fitRun (cfgOf : String → EstimatorCfg) (tuner : String → TunerOutcome)
    (effectMetric : String → Config → ℚ) (names : List String) : FitState :=
  fitList cfgOf tuner effectMetric ⟨[], [], []⟩ names

/-- The direct `_estimate_effect` calls the `fit` loop makes on a name list:
one call per estimator with an empty search space, none otherwise. -/
def newCalls (cfgOf : String → EstimatorCfg) : List String → List (String × Config)
  | [] => []
  | n :: rest =>
      (if (cfgOf n).search_space = [] then [(n, (cfgOf n).init_params)] else [])
        ++ newCalls cfgOf rest

/-- `AutoCausality.best_config_per_estimator` (lines 430-437): the dict
comprehension over the estimator list of the `tune_results` entries. -/
def bestConfigPerEstimator (names : List String) (st : FitState) :
    List (String × Option Config) :=
  (names.filter fun n => (dLookup n st.tune_results).isSome).map
    fun n => (n, (dLookup n st.tune_results).getD none)

/-- The `TypeError` Python raises when `>` compares `None` with a float. -/
def tyErr : String := "TypeError: unsupported comparison between NoneType and float"

/-- The scan of Python `max(d, key=d.get)` after the first key: keep the
current best, replace it when a later value compares strictly greater; any
comparison involving `None` raises `TypeError`. -/
def pyGoMax : String → Option ℚ → List (String × Option ℚ) → Except String String
  | cur, _, [] => Except.ok cur
  | cur, curv, (k, v) :: rest =>
    match v, curv with
    | some a, some b => if b < a then pyGoMax k (some a) rest else pyGoMax cur (some b) rest
    | _, _ => Except.error tyErr

/-- Python `max(d, key=d.get)` over an insertion-ordered dict: `ValueError` on
an empty dict, else the strict greater-than scan from the first key. -/
def pyMaxByGet : List (String × Option ℚ) → Except String String
  | [] => Except.error "ValueError: max() arg is an empty sequence"
  | (k, v) :: rest => pyGoMax k v rest

/-- `AutoCausality.best_estimator` (lines 401-404):
`max(self.scores, key=self.scores.get)`. -/
def bestEstimator (st : FitState) : Except String String := pyMaxByGet st.scores

/-- The strict greater-than scan on scores that are all present. -/
def scanArg : String → ℚ → List (String × ℚ) → String
  | cur, _, [] => cur
  | cur, curv, (k, v) :: rest =>
      if curv < v then scanArg k v rest else scanArg cur curv rest

/-- The maximum of a base value and the score entries of a list. -/
def maxFrom (b : ℚ) (l : List (String × ℚ)) : ℚ :=
  l.foldr (fun p acc => max p.2 acc) b

/-- Stated from the spec sentence: the global best estimator is the argmax of
the scores, "ties broken by iteration order (first-seen wins)" — the first
entry whose score equals the maximum. -/
def specBestEstimator : List (String × ℚ) → Option String
  | [] => none
  | (k, v) :: rest =>
      (((k, v) :: rest).find? fun p => decide (p.2 = maxFrom v rest)).map Prod.fst

/-- Concrete descriptor for estimator `"A"`: a non-empty search space. -/
def cfgA : EstimatorCfg := ⟨[("p", 1)], [("q", 2)]⟩

/-- Concrete descriptor for estimator `"B"`: an empty search space. -/
def cfgB : EstimatorCfg := ⟨[], [("r", 3)]⟩

/-- Concrete registry view: `"A"` has a search space, every other name not. -/
def cfgOfW : String → EstimatorCfg := fun n => if n = "A" then cfgA else cfgB

/-- Concrete tuner on which every trial fails: no best trial, no best config. -/
def tunerFailW : String → TunerOutcome := fun _ => ⟨none, none⟩

/-- Concrete single-trial metric value. -/
def metricW : String → Config → ℚ := fun _ _ => 7

/-! ## Parameter merge in `_estimate_effect` (`optimiser.py`, lines 338-348)

`params_to_tune = {**init_params, **config}` after `config = clean_config(config)`;
`clean_config` lives in `auto_causality/utils.py` (not under `src/`) and is
kept as an arbitrary function parameter. -/

/-- Building a Python dict by successive item assignment. -/
def pyInsert {α : Type} (d : List (String × α)) (kv : String × α) : List (String × α) :=
  dSet kv.1 kv.2 d

/-- Python `{**a, **b}`: insert all items of `a`, then all items of `b`, into
a fresh dict. -/
def pyMerge {α : Type} (a b : List (String × α)) : List (String × α) :=
  (a ++ b).foldl pyInsert []

/-- The `init_params` dict passed to `causal_model.estimate_effect` by
`_estimate_effect`: the fixed `init_params` merged with the cleaned trial
configuration (`optimiser.py`, lines 342-348). -/
def estimateEffectParams {α : Type} (cleanConfig : List (String × α) → List (String × α))
    (initParams config : List (String × α)) : List (String × α) :=
  pyMerge initParams (cleanConfig config)

/-- Concrete fixed constructor arguments for the C10 instance. -/
def initPW : Config := [("a", 1), ("b", 2)]

/-- Concrete trial configuration for the C10 instance, overlapping `initPW`
on key `"b"`. -/
def confPW : Config := [("b", 9), ("c", 3)]

/-! ## Lemmas on deduplication -/

/-- Every element of `dedupFirst seen l` comes from `l`. -/
lemma dedupFirst_sub : ∀ (l seen : List String) (x : String),
    x ∈ dedupFirst seen l → x ∈ l := by
  intro l
  induction l with
  | nil => intro seen x hx; simp [dedupFirst] at hx
  | cons y ys ih =>
      intro seen x hx
      simp only [dedupFirst] at hx
      by_cases hmem : y ∈ seen
      · rw [if_pos hmem] at hx
        exact List.mem_cons_of_mem _ (ih seen x hx)
      · rw [if_neg hmem] at hx
        rcases List.mem_cons.mp hx with rfl | hx2
        · exact List.mem_cons_self _ _
        · exact List.mem_cons_of_mem _ (ih (y :: seen) x hx2)

/-- `dedupFirst` yields a duplicate-free list avoiding the seen accumulator. -/
lemma dedupFirst_nodup_notin : ∀ (l seen : List String),
    (dedupFirst seen l).Nodup ∧ ∀ x ∈ dedupFirst seen l, x ∉ seen := by
  intro l
  induction l with
  | nil => intro seen; simp [dedupFirst]
  | cons y ys ih =>
      intro seen
      simp only [dedupFirst]
      by_cases hmem : y ∈ seen
      · rw [if_pos hmem]
        exact ih seen
      · rw [if_neg hmem]
        obtain ⟨hnd, hnotin⟩ := ih (y :: seen)
        refine ⟨List.nodup_cons.mpr ⟨fun hy => hnotin y hy (List.mem_cons_self y seen), hnd⟩, ?_⟩
        intro x hx
        rcases List.mem_cons.mp hx with rfl | hx2
        · exact hmem
        · exact fun hs => hnotin x hx2 (List.mem_cons_of_mem _ hs)

/-- A structurally valid, non-empty requested list yields non-empty requested
strings. -/
lemma requestedStrings_ne_nil (items : List PyItem)
    (hver : verifyEstimatorList (PySetting.list items) = true)
    (hne : items ≠ []) : requestedStrings items ≠ [] := by
  cases items with
  | nil => exact absurd rfl hne
  | cons x xs =>
      cases x with
      | str s => simp [requestedStrings]
      | int n => simp [verifyEstimatorList] at hver

/-! ## Claim theorems: estimator resolution -/

/-- C1: a structurally invalid `estimator_list` (a list with a non-string
element, or a non-list value) does NOT raise: `_create_estimator_list` emits
the warning "invalid estimator list requested, continuing with defaults" and
returns all available estimators.  This evaluates the code at the failing
inputs `[42]` and `5`. -/
theorem claim_c1_invalid_list_warns_and_defaults :
    createEstimatorList sampleRegistry (PySetting.list [PyItem.int 42])
        = Resolution.defaulted "invalid estimator list requested, continuing with defaults"
            (availableEstimators sampleRegistry)
      ∧ createEstimatorList sampleRegistry (PySetting.int 5)
        = Resolution.defaulted "invalid estimator list requested, continuing with defaults"
            (availableEstimators sampleRegistry) :=
  ⟨rfl, rfl⟩

/-- C9: for a non-empty requested list of strings, each containing at least one
available identifier as a case-sensitive substring, resolution returns a
matched list that is duplicate-free, a subset of the available identifiers,
and each of whose elements contains some requested string. -/
theorem claim_c9_valid_request_resolves (registry : List String) (items : List PyItem)
    (hver : verifyEstimatorList (PySetting.list items) = true)
    (hne : items ≠ [])
    (hmatch : ∀ r ∈ requestedStrings items,
      ∃ a ∈ availableEstimators registry, strIn r a = true) :
    resolvedListOk registry (requestedStrings items)
      (createEstimatorList registry (PySetting.list items)) = true := by
  have hnotsentinel :
      ¬ (PySetting.list items = PySetting.str "auto" ∨ PySetting.list items = PySetting.list []) := by
    rintro (h | h)
    · exact PySetting.noConfusion h
    · exact hne (by injection h)
  have hreq := requestedStrings_ne_nil items hver hne
  obtain ⟨r0, rest, hr⟩ := List.exists_cons_of_ne_nil hreq
  obtain ⟨a0, ha0, hstr0⟩ := hmatch r0 (by rw [hr]; exact List.mem_cons_self _ _)
  have hmatched : a0 ∈ (requestedStrings items).flatMap
      fun r => (availableEstimators registry).filter fun a => strIn r a := by
    apply List.mem_flatMap.mpr
    exact ⟨r0, by rw [hr]; exact List.mem_cons_self _ _, List.mem_filter.mpr ⟨ha0, hstr0⟩⟩
  have hmne : (requestedStrings items).flatMap
      (fun r => (availableEstimators registry).filter fun a => strIn r a) ≠ [] :=
    List.ne_nil_of_mem hmatched
  have huse : dedupFirst [] ((requestedStrings items).flatMap
      fun r => (availableEstimators registry).filter fun a => strIn r a) ≠ [] := by
    obtain ⟨m0, ms, hm⟩ := List.exists_cons_of_ne_nil hmne
    rw [hm]
    simp [dedupFirst]
  rw [createEstimatorList]
  rw [if_neg hnotsentinel, if_pos hver]
  simp only
  rw [if_neg huse]
  rw [resolvedListOk]
  simp only [Bool.and_eq_true]
  refine ⟨⟨?_, ?_⟩, ?_⟩
  · exact decide_eq_true (dedupFirst_nodup_notin _ []).1
  · apply List.all_eq_true.mpr
    intro a ha
    apply decide_eq_true
    have hin := dedupFirst_sub _ [] a ha
    obtain ⟨r, _, hfa⟩ := List.mem_flatMap.mp hin
    exact (List.mem_filter.mp hfa).1
  · apply List.all_eq_true.mpr
    intro a ha
    have hin := dedupFirst_sub _ [] a ha
    obtain ⟨r, hrm, hfa⟩ := List.mem_flatMap.mp hin
    exact List.any_eq_true.mpr ⟨r, hrm, (List.mem_filter.mp hfa).2⟩

/-- C9 witness: the request `["LinearDML"]` against the sample registry
resolves to a duplicate-free matched subset of the available estimators. -/
theorem claim_c9_witness :
    resolvedListOk sampleRegistry (requestedStrings [PyItem.str "LinearDML"])
      (createEstimatorList sampleRegistry (PySetting.list [PyItem.str "LinearDML"])) = true :=
  claim_c9_valid_request_resolves sampleRegistry [PyItem.str "LinearDML"]
    (by decide) (by decide) (by decide)

/-! ## Lemmas on the scoring engine -/

/-- The ERUPT weight vector is as long as the shorter of rows and policy. -/
lemma eruptWeights_length (df : DFrame) (policy : List Bool) :
    (eruptWeights df policy).length = min df.rows.length policy.length := by
  simp [eruptWeights]

/-- The diagnostic table is as long as the shortest input column. -/
lemma buildRows_length (rows : List DRow) (p1 : ℚ) (policy : List Bool) (w : List ℚ) :
    (buildRows rows p1 policy w).length = min rows.length (min policy.length w.length) := by
  simp [buildRows]

/-- When the effect-prediction vector matches the dataframe length, every
pandas length check and the final assertion pass, and `make_scores` returns
the fully computed score record. -/
lemma makeScores_ok {T : Type} (qiniF auucF : DFrame → List ℚ → ℚ) (interp : Option T)
    (df : DFrame) (cate : List ℚ) (rScorer : Option (List ℚ → ℚ))
    (hlen : cate.length = df.rows.length) :
    makeScores qiniF auucF interp df cate rScorer = Except.ok
      { erupt := eruptScoreF df cate
        qini := qiniF df cate
        auc := auucF df cate
        r_score := match rScorer with
          | none => 0
          | some f => f cate
        ate := npMean cate
        intrp := interp
        values := buildRows df.rows (priorP1 df) (cate.map fun c => decide (0 < c))
          (eruptWeights df (cate.map fun c => decide (0 < c))) } := by
  have hpol : (cate.map fun c => decide (0 < c)).length = df.rows.length := by
    rw [List.length_map]; exact hlen
  have hw : (eruptWeights df (cate.map fun c => decide (0 < c))).length = df.rows.length := by
    rw [eruptWeights_length, hpol, Nat.min_self]
  have hv : (buildRows df.rows (priorP1 df) (cate.map fun c => decide (0 < c))
      (eruptWeights df (cate.map fun c => decide (0 < c)))).length = df.rows.length := by
    rw [buildRows_length, hpol, hw, Nat.min_self, Nat.min_self]
  simp only [makeScores]
  rw [if_pos hlen, if_pos hw, if_pos hv]

/-! ## Claim theorems: scoring engine -/

/-- C4: whenever `make_scores` returns, its per-row diagnostic table has
exactly as many rows as the input dataframe; a violating table would instead
hit the `assert` (modelled as the `AssertionError` branch), never a warning. -/
theorem claim_c4_diagnostic_row_count {T : Type} (qiniF auucF : DFrame → List ℚ → ℚ)
    (interp : Option T) (df : DFrame) (cate : List ℚ) (rScorer : Option (List ℚ → ℚ))
    (s : Scores T) (h : makeScores qiniF auucF interp df cate rScorer = Except.ok s) :
    s.values.length = df.rows.length := by
  simp only [makeScores] at h
  by_cases h1 : cate.length = df.rows.length
  · rw [if_pos h1] at h
    by_cases h2 : (eruptWeights df (cate.map fun c => decide (0 < c))).length = df.rows.length
    · rw [if_pos h2] at h
      by_cases h3 : (buildRows df.rows (priorP1 df) (cate.map fun c => decide (0 < c))
          (eruptWeights df (cate.map fun c => decide (0 < c)))).length = df.rows.length
      · rw [if_pos h3] at h
        injection h with h4
        rw [← h4]
        exact h3
      · rw [if_neg h3] at h
        exact Except.noConfusion h
    · rw [if_neg h2] at h
      exact Except.noConfusion h
  · rw [if_neg h1] at h
    exact Except.noConfusion h

/-- C4 witness: on the concrete two-row frame the returned table has two rows. -/
theorem claim_c4_witness : scoresW.values.length = dfW.rows.length :=
  claim_c4_diagnostic_row_count (fun _ _ => 0) (fun _ _ => 0) none dfW cateW none scoresW rfl

/-- C6: with no reference scorer supplied, the `r_score` entry of the returned
score dictionary is exactly 0, whatever the other inputs. -/
theorem claim_c6_rscore_zero_without_scorer {T : Type} (qiniF auucF : DFrame → List ℚ → ℚ)
    (interp : Option T) (df : DFrame) (cate : List ℚ)
    (hlen : cate.length = df.rows.length) :
    exceptRScore (makeScores qiniF auucF interp df cate none) = some 0 := by
  rw [makeScores_ok qiniF auucF interp df cate none hlen]
  rfl

/-- C6 witness: concrete instance with no reference scorer. -/
theorem claim_c6_witness :
    exceptRScore (makeScores (fun _ _ => 0) (fun _ _ => 0) (none : Option Unit) dfW cateW none)
      = some 0 :=
  claim_c6_rscore_zero_without_scorer (fun _ _ => 0) (fun _ _ => 0) none dfW cateW (by decide)

/-- C7: the `ate` entry of the returned score dictionary is the arithmetic
mean of the effect-prediction vector. -/
theorem claim_c7_ate_is_mean {T : Type} (qiniF auucF : DFrame → List ℚ → ℚ)
    (interp : Option T) (df : DFrame) (cate : List ℚ) (rScorer : Option (List ℚ → ℚ))
    (hlen : cate.length = df.rows.length) :
    exceptAte (makeScores qiniF auucF interp df cate rScorer)
      = some (cate.sum / (cate.length : ℚ)) := by
  rw [makeScores_ok qiniF auucF interp df cate rScorer hlen]
  rfl

/-- C7 witness: the mixed-sign vector `[1, -1]` has mean 0. -/
theorem claim_c7_witness :
    exceptAte (makeScores (fun _ _ => 0) (fun _ _ => 0) (none : Option Unit) dfW cateW none)
      = some 0 :=
  (claim_c7_ate_is_mean (fun _ _ => 0) (fun _ _ => 0) none dfW cateW none (by decide)).trans
    (by norm_num [cateW])

/-- C8: when fitting the interpretability surrogate raised (the swallowed
`try` yields no tree), `make_scores` still returns normally, with a null
`intrp` artifact and every other metric entry computed. -/
theorem claim_c8_interpreter_failure_nulled {T : Type} (qiniF auucF : DFrame → List ℚ → ℚ)
    (df : DFrame) (cate : List ℚ) (rScorer : Option (List ℚ → ℚ))
    (hlen : cate.length = df.rows.length) :
    makeScores qiniF auucF (none : Option T) df cate rScorer = Except.ok
      { erupt := eruptScoreF df cate
        qini := qiniF df cate
        auc := auucF df cate
        r_score := match rScorer with
          | none => 0
          | some f => f cate
        ate := npMean cate
        intrp := none
        values := buildRows df.rows (priorP1 df) (cate.map fun c => decide (0 < c))
          (eruptWeights df (cate.map fun c => decide (0 < c))) } :=
  makeScores_ok qiniF auucF none df cate rScorer hlen

/-- C8 witness: concrete instance with a failed interpreter fit. -/
theorem claim_c8_witness :
    makeScores (fun _ _ => 0) (fun _ _ => 0) (none : Option Unit) dfW cateW none
      = Except.ok scoresW :=
  claim_c8_interpreter_failure_nulled (fun _ _ => 0) (fun _ _ => 0) dfW cateW none (by decide)

/-! ## Lemmas on dictionaries and the fit loop -/

/-- Assigning key `k` makes lookup of `k` return the assigned value. -/
lemma dSet_lookup_self {α : Type} (k : String) (v : α) :
    ∀ d, dLookup k (dSet k v d) = some v := by
  intro d
  induction d with
  | nil => simp [dSet, dLookup]
  | cons p rest ih =>
      obtain ⟨k2, v2⟩ := p
      simp only [dSet]
      by_cases h : k2 = k
      · rw [if_pos h]; simp [dLookup]
      · rw [if_neg h]; simp only [dLookup]; rw [if_neg h]; exact ih

/-- Assigning one key leaves lookups of other keys unchanged. -/
lemma dSet_lookup_other {α : Type} (k k2 : String) (v : α) (hne : k2 ≠ k) :
    ∀ d, dLookup k (dSet k2 v d) = dLookup k d := by
  intro d
  induction d with
  | nil => simp [dSet, dLookup, hne]
  | cons p rest ih =>
      obtain ⟨k3, v3⟩ := p
      simp only [dSet]
      by_cases h : k3 = k2
      · rw [if_pos h]
        simp only [dLookup]
        rw [if_neg hne, if_neg (h ▸ hne)]
      · rw [if_neg h]
        simp only [dLookup]
        by_cases h2 : k3 = k
        · rw [if_pos h2, if_pos h2]
        · rw [if_neg h2, if_neg h2]; exact ih

/-- Every branch of one fit iteration writes the score entry of its own
estimator name. -/
lemma fitStep_scores_set (cfgOf : String → EstimatorCfg) (tuner : String → TunerOutcome)
    (m : String → Config → ℚ) (st : FitState) (name : String) :
    ∃ v, (fitStep cfgOf tuner m st name).scores = dSet name v st.scores := by
  simp only [fitStep]
  by_cases h : (cfgOf name).search_space = []
  · rw [if_pos h]; exact ⟨_, rfl⟩
  · rw [if_neg h]
    cases htr : (tuner name).best_trial with
    | none => exact ⟨none, rfl⟩
    | some v => exact ⟨some v, rfl⟩

/-- Every branch of one fit iteration writes the tune-results entry of its
own estimator name. -/
lemma fitStep_tune_set (cfgOf : String → EstimatorCfg) (tuner : String → TunerOutcome)
    (m : String → Config → ℚ) (st : FitState) (name : String) :
    ∃ v, (fitStep cfgOf tuner m st name).tune_results = dSet name v st.tune_results := by
  simp only [fitStep]
  by_cases h : (cfgOf name).search_space = []
  · rw [if_pos h]; exact ⟨_, rfl⟩
  · rw [if_neg h]
    cases htr : (tuner name).best_trial with
    | none => exact ⟨_, rfl⟩
    | some v => exact ⟨_, rfl⟩

/-- Estimators not named in the remaining list keep their score entry. -/
lemma fitList_scores_notin (cfgOf : String → EstimatorCfg) (tuner : String → TunerOutcome)
    (m : String → Config → ℚ) :
    ∀ (names : List String) (st : FitState) (e : String), e ∉ names →
      dLookup e (fitList cfgOf tuner m st names).scores = dLookup e st.scores := by
  intro names
  induction names with
  | nil => intro st e _; rfl
  | cons n rest ih =>
      intro st e h
      have hne : n ≠ e := fun hh => h (hh ▸ List.mem_cons_self _ _)
      have h2 : e ∉ rest := fun hh => h (List.mem_cons_of_mem _ hh)
      rw [fitList, ih (fitStep cfgOf tuner m st n) e h2]
      obtain ⟨v, hv⟩ := fitStep_scores_set cfgOf tuner m st n
      rw [hv, dSet_lookup_other e n v hne]

/-- Estimators not named in the remaining list keep their tune-results entry. -/
lemma fitList_tune_notin (cfgOf : String → EstimatorCfg) (tuner : String → TunerOutcome)
    (m : String → Config → ℚ) :
    ∀ (names : List String) (st : FitState) (e : String), e ∉ names →
      dLookup e (fitList cfgOf tuner m st names).tune_results = dLookup e st.tune_results := by
  intro names
  induction names with
  | nil => intro st e _; rfl
  | cons n rest ih =>
      intro st e h
      have hne : n ≠ e := fun hh => h (hh ▸ List.mem_cons_self _ _)
      have h2 : e ∉ rest := fun hh => h (List.mem_cons_of_mem _ hh)
      rw [fitList, ih (fitStep cfgOf tuner m st n) e h2]
      obtain ⟨v, hv⟩ := fitStep_tune_set cfgOf tuner m st n
      rw [hv, dSet_lookup_other e n v hne]

/-- Every estimator processed by the loop ends with a score entry present. -/
lemma fitList_scores_some (cfgOf : String → EstimatorCfg) (tuner : String → TunerOutcome)
    (m : String → Config → ℚ) :
    ∀ (names : List String) (st : FitState) (e : String), e ∈ names →
      (dLookup e (fitList cfgOf tuner m st names).scores).isSome = true := by
  intro names
  induction names with
  | nil => intro st e he; exact absurd he (List.not_mem_nil e)
  | cons n rest ih =>
      intro st e he
      rw [fitList]
      by_cases hr : e ∈ rest
      · exact ih _ e hr
      · have heq : e = n := (List.mem_cons.mp he).resolve_right hr
        subst heq
        rw [fitList_scores_notin cfgOf tuner m rest _ e hr]
        obtain ⟨v, hv⟩ := fitStep_scores_set cfgOf tuner m st e
        rw [hv, dSet_lookup_self]
        rfl

/-- A processed estimator whose search space is non-empty and whose tuner
returned no best trial ends with the score entry present and equal to `None`. -/
lemma fitList_scores_failed (cfgOf : String → EstimatorCfg) (tuner : String → TunerOutcome)
    (m : String → Config → ℚ) (e : String)
    (hspace : (cfgOf e).search_space ≠ [])
    (hfail : (tuner e).best_trial = none) :
    ∀ (names : List String) (st : FitState), e ∈ names →
      dLookup e (fitList cfgOf tuner m st names).scores = some none := by
  intro names
  induction names with
  | nil => intro st he; exact absurd he (List.not_mem_nil e)
  | cons n rest ih =>
      intro st he
      rw [fitList]
      by_cases hr : e ∈ rest
      · exact ih _ hr
      · have heq : e = n := (List.mem_cons.mp he).resolve_right hr
        subst heq
        rw [fitList_scores_notin cfgOf tuner m rest _ e hr]
        simp only [fitStep]
        rw [if_neg hspace, hfail]
        exact dSet_lookup_self e none st.scores

/-- A processed estimator whose search space is empty ends with its
tune-results entry equal to the empty dict. -/
lemma fitList_tune_empty_space (cfgOf : String → EstimatorCfg) (tuner : String → TunerOutcome)
    (m : String → Config → ℚ) (e : String)
    (hspace : (cfgOf e).search_space = []) :
    ∀ (names : List String) (st : FitState), e ∈ names →
      dLookup e (fitList cfgOf tuner m st names).tune_results = some (some []) := by
  intro names
  induction names with
  | nil => intro st he; exact absurd he (List.not_mem_nil e)
  | cons n rest ih =>
      intro st he
      rw [fitList]
      by_cases hr : e ∈ rest
      · exact ih _ hr
      · have heq : e = n := (List.mem_cons.mp he).resolve_right hr
        subst heq
        rw [fitList_tune_notin cfgOf tuner m rest _ e hr]
        simp only [fitStep]
        rw [if_pos hspace]
        exact dSet_lookup_self e (some []) st.tune_results

/-- One fit iteration appends exactly the direct effect-estimation calls of
its branch to the call log. -/
lemma fitStep_calls (cfgOf : String → EstimatorCfg) (tuner : String → TunerOutcome)
    (m : String → Config → ℚ) (st : FitState) (n : String) :
    (fitStep cfgOf tuner m st n).effect_calls
      = st.effect_calls
        ++ (if (cfgOf n).search_space = [] then [(n, (cfgOf n).init_params)] else []) := by
  simp only [fitStep]
  by_cases h : (cfgOf n).search_space = []
  · rw [if_pos h, if_pos h]
  · rw [if_neg h, if_neg h, List.append_nil]
    cases htr : (tuner n).best_trial with
    | none => rfl
    | some v => rfl

/-- The call log after the loop is the initial log followed by one direct
effect-estimation call per empty-search-space estimator, in order. -/
lemma fitList_calls (cfgOf : String → EstimatorCfg) (tuner : String → TunerOutcome)
    (m : String → Config → ℚ) :
    ∀ (names : List String) (st : FitState),
      (fitList cfgOf tuner m st names).effect_calls
        = st.effect_calls ++ newCalls cfgOf names := by
  intro names
  induction names with
  | nil => intro st; simp [fitList, newCalls]
  | cons n rest ih =>
      intro st
      rw [fitList, ih, newCalls, fitStep_calls, List.append_assoc]

/-- Filtering the loop's new calls down to one estimator name yields one call
with its fixed init params per occurrence of the name, when its search space
is empty. -/
lemma newCalls_filter (cfgOf : String → EstimatorCfg) (e : String)
    (hspace : (cfgOf e).search_space = []) :
    ∀ names : List String,
      (newCalls cfgOf names).filter (fun p => p.1 == e)
        = List.replicate (names.count e) (e, (cfgOf e).init_params) := by
  intro names
  induction names with
  | nil => simp [newCalls]
  | cons n rest ih =>
      rw [newCalls, List.filter_append, ih]
      by_cases h : n = e
      · subst h
        rw [if_pos hspace]
        rw [List.count_cons_self]
        simp [List.replicate]
      · have hcnt : (n :: rest).count e = rest.count e := by
          rw [List.count_cons_of_ne (fun hh => h hh.symm)]
        rw [hcnt]
        by_cases h2 : (cfgOf n).search_space = []
        · rw [if_pos h2]
          have : ((n, (cfgOf n).init_params).1 == e) = false := by
            simp [h]
          simp [List.filter, this]
        · rw [if_neg h2]
          simp [List.filter]

/-- Lookup in the association list built by pairing each name with a function
value returns the function value of the looked-up name. -/
lemma dLookup_map_pair {α : Type} (f : String → α) :
    ∀ (l : List String) (e : String), e ∈ l →
      dLookup e (l.map fun n => (n, f n)) = some (f e) := by
  intro l
  induction l with
  | nil => intro e he; exact absurd he (List.not_mem_nil e)
  | cons n rest ih =>
      intro e he
      simp only [List.map, dLookup]
      by_cases h : n = e
      · rw [if_pos h, h]
      · rw [if_neg h]
        exact ih e ((List.mem_cons.mp he).resolve_left fun hh => h hh.symm)

/-! ## Claim theorems: fit loop -/

/-- C2 counterexample: in a concrete run where estimator `"A"` has a
non-empty search space and every trial fails, the global best-score mapping
after `fit` is NOT missing the entry for `"A"` (the code stores
`scores["A"] = None`), contradicting the claim that the score is absent. -/
theorem claim_c2_counterexample :
    ¬ dLookup "A" (fitRun cfgOfW tunerFailW metricW ["A", "B"]).scores = none := by
  decide

/-- C2 (amended): when an estimator has a non-empty search space and the
tuner returns no best trial, after `fit` its entry in the best-score mapping
is PRESENT with value `None`, and the loop still processes every estimator in
the list (each one has a score entry). -/
theorem claim_c2_failed_estimator_scored_none (cfgOf : String → EstimatorCfg)
    (tuner : String → TunerOutcome) (effectMetric : String → Config → ℚ)
    (names : List String) (e : String)
    (hspace : (cfgOf e).search_space ≠ [])
    (hfail : (tuner e).best_trial = none)
    (hmem : e ∈ names) :
    dLookup e (fitRun cfgOf tuner effectMetric names).scores = some none
      ∧ names.all
          (fun n => (dLookup n (fitRun cfgOf tuner effectMetric names).scores).isSome)
        = true := by
  constructor
  · exact fitList_scores_failed cfgOf tuner effectMetric e hspace hfail names _ hmem
  · apply List.all_eq_true.mpr
    intro n hn
    exact fitList_scores_some cfgOf tuner effectMetric names _ n hn

/-- C2 witness: the concrete failed estimator `"A"` has a present `None`
score entry and the following estimator `"B"` was still processed. -/
theorem claim_c2_witness :
    dLookup "A" (fitRun cfgOfW tunerFailW metricW ["A", "B"]).scores = some none
      ∧ (dLookup "B" (fitRun cfgOfW tunerFailW metricW ["A", "B"]).scores).isSome = true := by
  refine ⟨(claim_c2_failed_estimator_scored_none cfgOfW tunerFailW metricW ["A", "B"] "A"
    (by decide) (by decide) (by decide)).1, ?_⟩
  have h := (claim_c2_failed_estimator_scored_none cfgOfW tunerFailW metricW ["A", "B"] "A"
    (by decide) (by decide) (by decide)).2
  exact List.all_eq_true.mp h "B" (by decide)

/-- C5: for an estimator with an empty search space appearing once in the
estimator list, the fit loop performs exactly one direct effect-estimation
call for it, passing exactly its fixed init params, and
`best_config_per_estimator` records the empty mapping for it. -/
theorem claim_c5_empty_space_single_trial (cfgOf : String → EstimatorCfg)
    (tuner : String → TunerOutcome) (effectMetric : String → Config → ℚ)
    (names : List String) (e : String)
    (hspace : (cfgOf e).search_space = [])
    (hcount : names.count e = 1) :
    (fitRun cfgOf tuner effectMetric names).effect_calls.filter (fun p => p.1 == e)
        = [(e, (cfgOf e).init_params)]
      ∧ dLookup e (bestConfigPerEstimator names (fitRun cfgOf tuner effectMetric names))
        = some (some []) := by
  have hmem : e ∈ names := by
    apply List.count_pos_iff.mp
    rw [hcount]
    exact Nat.zero_lt_one
  constructor
  · rw [fitRun, fitList_calls]
    rw [List.nil_append, newCalls_filter cfgOf e hspace names, hcount]
    rfl
  · have htl : dLookup e (fitRun cfgOf tuner effectMetric names).tune_results
        = some (some []) :=
      fitList_tune_empty_space cfgOf tuner effectMetric e hspace names _ hmem
    rw [bestConfigPerEstimator]
    have hf : e ∈ names.filter
        (fun n => (dLookup n (fitRun cfgOf tuner effectMetric names).tune_results).isSome) := by
      apply List.mem_filter.mpr
      exact ⟨hmem, by rw [htl]; rfl⟩
    rw [dLookup_map_pair _ _ e hf, htl]
    rfl

/-- C5 witness: the concrete empty-search-space estimator `"B"` gets exactly
one effect-estimation call with its init params and an empty best config. -/
theorem claim_c5_witness :
    (fitRun cfgOfW tunerFailW metricW ["A", "B"]).effect_calls.filter (fun p => p.1 == "B")
        = [("B", [("r", 3)])]
      ∧ dLookup "B" (bestConfigPerEstimator ["A", "B"] (fitRun cfgOfW tunerFailW metricW ["A", "B"]))
        = some (some []) :=
  claim_c5_empty_space_single_trial cfgOfW tunerFailW metricW ["A", "B"] "B"
    (by decide) (by decide)

/-! ## Lemmas on the best-estimator scan -/

/-- On all-present scores the Python max scan reduces to the pure scan. -/
lemma pyGoMax_all_some :
    ∀ (rest : List (String × ℚ)) (cur : String) (curv : ℚ),
      pyGoMax cur (some curv) (rest.map fun p => (p.1, some p.2))
        = Except.ok (scanArg cur curv rest) := by
  intro rest
  induction rest with
  | nil => intro cur curv; rfl
  | cons p t ih =>
      intro cur curv
      obtain ⟨k, v⟩ := p
      simp only [List.map, pyGoMax, scanArg]
      by_cases h : curv < v
      · rw [if_pos h, if_pos h]; exact ih k v
      · rw [if_neg h, if_neg h]; exact ih cur curv

/-- The base value bounds the running maximum. -/
lemma le_maxFrom (b : ℚ) : ∀ l : List (String × ℚ), b ≤ maxFrom b l := by
  intro l
  induction l with
  | nil => exact le_refl b
  | cons p t ih => exact le_trans ih (le_max_right p.2 (maxFrom b t))

/-- Raising the base below a dominating value keeps the running maximum. -/
lemma maxFrom_up (v b : ℚ) (h : b ≤ v) :
    ∀ l : List (String × ℚ), max v (maxFrom b l) = maxFrom v l := by
  intro l
  induction l with
  | nil =>
      show max v b = v
      exact max_eq_left h
  | cons p t ih =>
      show max v (max p.2 (maxFrom b t)) = max p.2 (maxFrom v t)
      rw [max_left_comm, ih]

/-- Unfolding `find?` on a head satisfying the predicate. -/
lemma find?_head_true {α : Type} (p : α → Bool) (a : α) (l : List α) (h : p a = true) :
    List.find? p (a :: l) = some a := by
  simp [List.find?, h]

/-- Unfolding `find?` on a head failing the predicate. -/
lemma find?_head_false {α : Type} (p : α → Bool) (a : α) (l : List α) (h : p a = false) :
    List.find? p (a :: l) = List.find? p l := by
  simp [List.find?, h]

/-- The first entry attaining the maximum is the result of the strict
greater-than scan. -/
lemma find_max_eq_scan :
    ∀ (t : List (String × ℚ)) (cur : String) (curv : ℚ),
      ((((cur, curv) :: t).find? fun p => decide (p.2 = maxFrom curv t)).map Prod.fst)
        = some (scanArg cur curv t) := by
  intro t
  induction t with
  | nil =>
      intro cur curv
      simp [List.find?, maxFrom, scanArg]
  | cons q t ih =>
      obtain ⟨k, v⟩ := q
      intro cur curv
      have hhead : maxFrom curv ((k, v) :: t) = max v (maxFrom curv t) := rfl
      by_cases hlt : curv < v
      · have hM : maxFrom curv ((k, v) :: t) = maxFrom v t := by
          rw [hhead]
          exact maxFrom_up v curv (le_of_lt hlt) t
        have hcne : curv ≠ maxFrom curv ((k, v) :: t) := by
          rw [hM]
          exact ne_of_lt (lt_of_lt_of_le hlt (le_maxFrom v t))
        have hfalse : (fun p : String × ℚ => decide (p.2 = maxFrom curv ((k, v) :: t)))
            (cur, curv) = false := decide_eq_false hcne
        rw [find?_head_false (fun p : String × ℚ => decide (p.2 = maxFrom curv ((k, v) :: t)))
          (cur, curv) ((k, v) :: t) hfalse, hM]
        simp only [scanArg, if_pos hlt]
        exact ih k v
      · have hvle : v ≤ curv := le_of_not_lt hlt
        have hM : maxFrom curv ((k, v) :: t) = maxFrom curv t := by
          rw [hhead]
          exact max_eq_right (le_trans hvle (le_maxFrom curv t))
        simp only [scanArg, if_neg hlt]
        rw [hM]
        by_cases hc : curv = maxFrom curv t
        · have htrue : (fun p : String × ℚ => decide (p.2 = maxFrom curv t))
              (cur, curv) = true := decide_eq_true hc
          rw [find?_head_true (fun p : String × ℚ => decide (p.2 = maxFrom curv t))
            (cur, curv) ((k, v) :: t) htrue]
          have hih := ih cur curv
          rw [find?_head_true (fun p : String × ℚ => decide (p.2 = maxFrom curv t))
            (cur, curv) t htrue] at hih
          exact hih
        · have hfalse : (fun p : String × ℚ => decide (p.2 = maxFrom curv t))
              (cur, curv) = false := decide_eq_false hc
          rw [find?_head_false (fun p : String × ℚ => decide (p.2 = maxFrom curv t))
            (cur, curv) ((k, v) :: t) hfalse]
          have hvne : (fun p : String × ℚ => decide (p.2 = maxFrom curv t))
              (k, v) = false := by
            apply decide_eq_false
            intro hveq
            have h1 : curv ≤ maxFrom curv t := le_maxFrom curv t
            rw [← hveq] at h1
            exact hc ((le_antisymm h1 hvle).trans hveq)
          rw [find?_head_false (fun p : String × ℚ => decide (p.2 = maxFrom curv t))
            (k, v) t hvne]
          have hih := ih cur curv
          rw [find?_head_false (fun p : String × ℚ => decide (p.2 = maxFrom curv t))
            (cur, curv) t hfalse] at hih
          exact hih

/-! ## Claim theorems: best estimator -/

/-- C3 counterexample: in a concrete run where estimator `"A"` failed (score
`None`) and `"B"` completed with score 7, `best_estimator` raises a
`TypeError` from comparing `None` with a float instead of returning the best
completed estimator `"B"`. -/
theorem claim_c3_counterexample :
    bestEstimator (fitRun cfgOfW tunerFailW metricW ["A", "B"]) = Except.error tyErr
      ∧ ¬ bestEstimator (fitRun cfgOfW tunerFailW metricW ["A", "B"]) = Except.ok "B" :=
  ⟨rfl, fun h => Except.noConfusion
    ((rfl : bestEstimator (fitRun cfgOfW tunerFailW metricW ["A", "B"])
        = Except.error tyErr).symm.trans h)⟩

/-- C3 (amended): when every processed estimator completed (every score entry
present), `best_estimator` returns the first estimator attaining the maximum
score (strict greater-than scan, first-seen wins), as described by
`specBestEstimator`; with an empty mapping it raises `ValueError`. -/
theorem claim_c3_best_estimator_first_max (l : List (String × ℚ)) :
    pyMaxByGet (l.map fun p => (p.1, some p.2))
      = (specBestEstimator l).elim
          (Except.error "ValueError: max() arg is an empty sequence") Except.ok := by
  cases l with
  | nil => rfl
  | cons p rest =>
      obtain ⟨k, v⟩ := p
      simp only [List.map, pyMaxByGet, specBestEstimator]
      rw [pyGoMax_all_some rest k v, find_max_eq_scan rest k v]
      rfl

/-! ## Lemmas on Python dict merge -/

/-- Lookup distributes over append as a left-biased choice. -/
lemma dLookup_append {α : Type} (k : String) :
    ∀ a b : List (String × α), dLookup k (a ++ b) = optOr (dLookup k a) (dLookup k b) := by
  intro a b
  induction a with
  | nil => rfl
  | cons p t ih =>
      obtain ⟨k2, v2⟩ := p
      simp only [List.cons_append, dLookup]
      by_cases h : k2 = k
      · rw [if_pos h, if_pos h]; rfl
      · rw [if_neg h, if_neg h]; exact ih

/-- Left-biased choice with nothing on the right. -/
lemma optOr_none_right {α : Type} : ∀ o : Option α, optOr o none = o := by
  intro o
  cases o with
  | none => rfl
  | some v => rfl

/-- Left-biased choice is associative. -/
lemma optOr_assoc {α : Type} (a b c : Option α) :
    optOr (optOr a b) c = optOr a (optOr b c) := by
  cases a with
  | none => rfl
  | some v => rfl

/-- Folding item assignments into a dict looks up as: last write in the
assignment sequence wins, then the initial dict. -/
lemma dLookup_foldl_insert {α : Type} (k : String) :
    ∀ (l d : List (String × α)),
      dLookup k (l.foldl pyInsert d) = optOr (dLookup k l.reverse) (dLookup k d) := by
  intro l
  induction l with
  | nil => intro d; rfl
  | cons p t ih =>
      intro d
      obtain ⟨k2, v2⟩ := p
      rw [List.foldl_cons, ih, List.reverse_cons, dLookup_append, optOr_assoc]
      congr 1
      show dLookup k (dSet k2 v2 d) = optOr (dLookup k [(k2, v2)]) (dLookup k d)
      by_cases h : k2 = k
      · subst h
        rw [dSet_lookup_self]
        simp [dLookup]
        rfl
      · rw [dSet_lookup_other k k2 v2 h]
        simp only [dLookup]
        rw [if_neg h]
        rfl

/-- Lookup fails exactly on absent keys. -/
lemma dLookup_none_iff {α : Type} (k : String) :
    ∀ l : List (String × α), dLookup k l = none ↔ k ∉ l.map Prod.fst := by
  intro l
  induction l with
  | nil => simp [dLookup]
  | cons p t ih =>
      obtain ⟨k2, v2⟩ := p
      simp only [dLookup, List.map]
      by_cases h : k2 = k
      · rw [if_pos h]
        simp [h]
      · rw [if_neg h]
        rw [ih]
        simp [List.mem_cons]
        intro hk
        exact fun hh => h hh.symm

/-- Lookup in the empty dict fails. -/
lemma dLookup_nil {α : Type} (k : String) : dLookup k ([] : List (String × α)) = none := rfl

/-- Lookup in a one-entry dict. -/
lemma dLookup_single {α : Type} (k k2 : String) (v2 : α) :
    dLookup k [(k2, v2)] = if k2 = k then some v2 else none := by
  simp only [dLookup]

/-- Lookup distributes over cons. -/
lemma dLookup_cons {α : Type} (k k2 : String) (v2 : α) (t : List (String × α)) :
    dLookup k ((k2, v2) :: t) = if k2 = k then some v2 else dLookup k t := by
  simp only [dLookup]

/-- On a dict with pairwise distinct keys, looking up the reversed list gives
the same result as the list itself. -/
lemma dLookup_reverse_nodup {α : Type} (k : String) :
    ∀ l : List (String × α), (l.map Prod.fst).Nodup →
      dLookup k l.reverse = dLookup k l := by
  intro l
  induction l with
  | nil => intro _; rfl
  | cons p t ih =>
      obtain ⟨k2, v2⟩ := p
      intro hnd
      have hnd2 : (t.map Prod.fst).Nodup := (List.nodup_cons.mp (by simpa using hnd)).2
      have hnotin : k2 ∉ t.map Prod.fst := (List.nodup_cons.mp (by simpa using hnd)).1
      rw [List.reverse_cons, dLookup_append, dLookup_single, dLookup_cons]
      by_cases h : k2 = k
      · subst h
        have htrev : dLookup k2 t.reverse = none := by
          apply (dLookup_none_iff k2 t.reverse).mpr
          intro hmem
          apply hnotin
          have hmapr : t.reverse.map Prod.fst = (t.map Prod.fst).reverse := by
            rw [List.map_reverse]
          rw [hmapr] at hmem
          exact List.mem_reverse.mp hmem
        rw [htrev, if_pos rfl, if_pos rfl]
        rfl
      · rw [if_neg h, if_neg h, optOr_none_right, ih hnd2]

/-! ## Claim theorem: trial parameter merge -/

/-- C10: the params handed to the causal-estimator fit are the merge
`params_to_tune = ..init_params, ..cleaned config..`: lookup first consults the
cleaned trial configuration, then the fixed init params, so on a key present
in both the trial configuration value takes precedence, and keys present in
either side are present in the merge. -/
theorem claim_c10_trial_config_precedence {α : Type}
    (cleanConfig : List (String × α) → List (String × α))
    (initParams config : List (String × α)) (k : String)
    (hinit : (initParams.map Prod.fst).Nodup)
    (hconf : ((cleanConfig config).map Prod.fst).Nodup) :
    dLookup k (estimateEffectParams cleanConfig initParams config)
      = optOr (dLookup k (cleanConfig config)) (dLookup k initParams) := by
  rw [estimateEffectParams, pyMerge, dLookup_foldl_insert, dLookup_nil, optOr_none_right,
    List.reverse_append, dLookup_append,
    dLookup_reverse_nodup k _ hconf, dLookup_reverse_nodup k _ hinit]

/-- C10 witness: with init params `a=1, b=2` and trial config `b=9, c=3`, the
merged params map `b` to the trial value 9. -/
theorem claim_c10_witness :
    dLookup "b" (estimateEffectParams (fun c => c) initPW confPW) = some 9 :=
  (claim_c10_trial_config_precedence (fun c => c) initPW confPW "b"
    (by decide) (by decide)).trans (by decide)

end AutoCausality
